import Mathlib

/-!
# Verification of the streaming-transcription gateway (services/asr_service.go)

A shallow embedding of the ASR gateway: the binary frame codec
(`sendFrame` / `parseASRWSBinaryMessage`), the gzip helpers, the PCM
extractor, the adaptive read deadline, the `NextEvent` envelope
extraction, the websocket drain loop of `recognizeWebsocket`, and the
dual-path `recognize` orchestrator.

Bytes are modelled as `Nat` values (all produced values are `< 256`;
machine wrap-around is written explicitly with `% 2^32` where the Go
code uses `uint32`). Go strings are modelled as Lean `String`
(byte-for-byte for the ASCII data the protocol carries). Fallible Go
functions returning `(T, error)` are modelled as `Except String T` or
`Option T`.
-/

namespace ASRGateway

/-! ## Byte-level helpers -/

/-- Big-endian 4-byte encoding, as produced by `binary.BigEndian.PutUint32`
(the argument is reduced mod `2^32` by the caller where Go casts). -/
def be32 (n : Nat) : List Nat :=
  [n / 2 ^ 24 % 256, n / 2 ^ 16 % 256, n / 2 ^ 8 % 256, n % 256]

/-- Big-endian 4-byte read, as done by `binary.BigEndian.Uint32` on a
4-byte slice starting at offset `off`. -/
def readBE32 (data : List Nat) (off : Nat) : Nat :=
  data.getD off 0 * 2 ^ 24 + data.getD (off + 1) 0 * 2 ^ 16 +
    data.getD (off + 2) 0 * 2 ^ 8 + data.getD (off + 3) 0

/-- Little-endian 2-byte read (`binary.LittleEndian.Uint16`). -/
def readLE16 (data : List Nat) (off : Nat) : Nat :=
  data.getD off 0 + data.getD (off + 1) 0 * 256

/-- Little-endian 4-byte read (`binary.LittleEndian.Uint32`). -/
def readLE32 (data : List Nat) (off : Nat) : Nat :=
  data.getD off 0 + data.getD (off + 1) 0 * 256 +
    data.getD (off + 2) 0 * 2 ^ 16 + data.getD (off + 3) 0 * 2 ^ 24

/-! ## String helpers (models of the `strings` package on ASCII data) -/

/-- The white-space class used by `strings.TrimSpace` (ASCII subset;
the protocol never carries non-ASCII white space). -/
def isSpaceByte (c : Char) : Bool :=
  c = ' ' ∨ c = '\t' ∨ c = '\n' ∨ c = '\x0b' ∨ c = '\x0c' ∨ c = '\r'

/-- Model of `strings.TrimSpace`. -/
def trimSpace (s : String) : String :=
  ⟨((s.toList.dropWhile isSpaceByte).reverse.dropWhile isSpaceByte).reverse⟩

/-- Model of `strings.ToLower` (ASCII subset). -/
def toLowerStr (s : String) : String :=
  ⟨s.toList.map fun c => if 'A' ≤ c ∧ c ≤ 'Z' then Char.ofNat (c.toNat + 32) else c⟩

/-- `startsWithList l p` holds when `p` is an initial segment of `l`. -/
def startsWithList : List Char → List Char → Bool
  | _, [] => true
  | [], _ :: _ => false
  | c :: cs, d :: ds => c = d && startsWithList cs ds

/-- `occursInList l p`: `p` occurs as a contiguous run inside `l`. -/
def occursInList : List Char → List Char → Bool
  | l, p => if startsWithList l p then true else
      match l with
      | [] => false
      | _ :: rest => occursInList rest p

/-- Model of `strings.HasSuffix`. -/
def hasSuffixStr (s tail : String) : Bool :=
  startsWithList s.toList.reverse tail.toList.reverse

/-- Model of `strings.Contains`. -/
def containsStr (s sub : String) : Bool :=
  occursInList s.toList sub.toList

/-- Model of `strings.EqualFold s "true"` (ASCII folding suffices). -/
def equalFoldTrue (s : String) : Bool :=
  toLowerStr s = "true"

/-- Go `string(payload)` on a byte slice; the protocol's payloads are
ASCII, where the byte-to-char identification is exact. -/
def bytesToStr (l : List Nat) : String :=
  ⟨l.map fun b => Char.ofNat (b % 256)⟩

/-- Go `[]byte(s)` for ASCII strings. -/
def strToBytes (s : String) : List Nat :=
  s.toList.map Char.toNat

/-! ## gzip model

`gzipCompress` / `gzipDecompress` in the source wrap Go's
`compress/gzip`. The DEFLATE body is abstracted as the identity on the
payload bytes, keeping the observable facts the gateway relies on: a
produced stream is at least 18 bytes, starts with the magic bytes
`0x1f 0x8b` and method byte `8`, the reader rejects any input that is
shorter than a header or does not start with that magic, and reading a
produced stream returns the original payload. (The CRC32/ISIZE trailer
is carried but its checksum is abstracted as zero.) -/

/-- The 10-byte gzip member header emitted by `gzip.NewWriter`
(magic `1f 8b`, CM=8, FLG=0, MTIME=0, XFL=0, OS=255). -/
def gzipHeader : List Nat := [31, 139, 8, 0, 0, 0, 0, 0, 0, 255]

/-- Model of writing `d` through `gzip.NewWriter` and closing it:
header, (abstracted) body, 8-byte trailer (CRC abstracted as zero,
then ISIZE little-endian). -/
def gzipStream (d : List Nat) : List Nat :=
  gzipHeader ++ d ++ ([0, 0, 0, 0] ++
    [d.length % 256, d.length / 256 % 256, d.length / 2 ^ 16 % 256, d.length / 2 ^ 24 % 256])

/-- Model of `gzip.NewReader` + `io.Copy`: reject inputs shorter than a
header+trailer or with a wrong magic/method; otherwise return the body. -/
def gzipRead (data : List Nat) : Except String (List Nat) :=
  if data.length < 18 then .error "gzip: unexpected EOF"
  else if data.take 3 ≠ [31, 139, 8] then .error "gzip: invalid header"
  else .ok ((data.drop 10).take (data.length - 18))

/-- `gzipCompress` from the source: empty input short-circuits to an
empty byte slice (no gzip stream is written); otherwise the payload is
written through a gzip writer. Writes to a `bytes.Buffer` cannot fail,
so the model is total. -/
def gzipCompress (data : List Nat) : List Nat :=
  if data.isEmpty then [] else gzipStream data

/-- `gzipDecompress` from the source: open a gzip reader over the bytes
and copy everything out. -/
def gzipDecompress (data : List Nat) : Except String (List Nat) :=
  gzipRead data

theorem gzipRead_gzipStream (d : List Nat) : gzipRead (gzipStream d) = .ok d := by
  have hlen : (gzipStream d).length = 18 + d.length := by
    simp [gzipStream, gzipHeader]; omega
  have htake : (gzipStream d).take 3 = [31, 139, 8] := by
    simp [gzipStream, gzipHeader]
  have hdrop : (gzipStream d).drop 10 = d ++ ([0, 0, 0, 0] ++
      [d.length % 256, d.length / 256 % 256, d.length / 2 ^ 16 % 256, d.length / 2 ^ 24 % 256]) := by
    simp [gzipStream, gzipHeader]
  rw [gzipRead, if_neg (by omega), if_neg (by simp [htake]), hdrop, hlen]
  have : 18 + d.length - 18 = d.length := by omega
  rw [this]
  exact congrArg Except.ok (List.take_left d _)

/-! ## JSON model

Envelopes travel as JSON and are decoded by `json.Unmarshal` into
`map[string]interface{}`. `JVal` is the generic value tree (numbers as
`Int`: every number the protocol carries is integral; strings and keys
as Lean `String`). The parser below models `encoding/json` on the
ASCII/integer subset the gateway exchanges; a later duplicate key wins
on lookup, as in a Go map rebuild. -/

inductive JVal where
  | jnull
  | jbool (b : Bool)
  | jnum (n : Int)
  | jstr (s : String)
  | jarr (elems : List JVal)
  | jobj (fields : List (String × JVal))

abbrev Envelope := List (String × JVal)

/-- JSON structural white space. -/
def isJsonWs (c : Char) : Bool :=
  c = ' ' ∨ c = '\t' ∨ c = '\n' ∨ c = '\r'

def skipWs (cs : List Char) : List Char := cs.dropWhile isJsonWs

/-- Body of a JSON string literal (after the opening quote), with the
escape sequences the protocol uses. -/
def parseStrBody : Nat → List Char → List Char → Option (String × List Char)
  | 0, _, _ => none
  | _, _, [] => none
  | fuel + 1, acc, c :: rest =>
    if c = '"' then some (⟨acc.reverse⟩, rest)
    else if c = '\\' then
      match rest with
      | [] => none
      | e :: rest2 =>
        let dec : Option Char :=
          if e = '"' then some '"' else if e = '\\' then some '\\'
          else if e = '/' then some '/' else if e = 'n' then some '\n'
          else if e = 't' then some '\t' else if e = 'r' then some '\r'
          else none
        match dec with
        | some d => parseStrBody fuel (d :: acc) rest2
        | none => none
    else parseStrBody fuel (c :: acc) rest

def digitsToNat (ds : List Char) : Nat :=
  ds.foldl (fun n c => n * 10 + (c.toNat - 48)) 0

/-- JSON number (integer subset: optional minus, digits, no
fraction/exponent — all numbers the gateway exchanges are integral). -/
def parseJNum (cs : List Char) : Option (Int × List Char) :=
  let p := match cs with
    | '-' :: t => (true, t)
    | _ => (false, cs)
  let ds := p.2.takeWhile fun c => '0' ≤ c ∧ c ≤ '9'
  let rest := p.2.drop ds.length
  if ds.isEmpty then none
  else if rest.head? = some '.' then none
  else some ((if p.1 then -(digitsToNat ds : Int) else (digitsToNat ds : Int)), rest)

mutual

def parseJVal : Nat → List Char → Option (JVal × List Char)
  | 0, _ => none
  | fuel + 1, cs =>
    match skipWs cs with
    | [] => none
    | c :: rest =>
      if c = '"' then
        (parseStrBody (fuel + 1) [] rest).map fun p => (.jstr p.1, p.2)
      else if c = '{' then
        match skipWs rest with
        | '}' :: r => some (.jobj [], r)
        | cs2 => parseJMembers fuel cs2 []
      else if c = '[' then
        match skipWs rest with
        | ']' :: r => some (.jarr [], r)
        | cs2 => parseJElems fuel cs2 []
      else if startsWithList (c :: rest) "true".toList then
        some (.jbool true, (c :: rest).drop 4)
      else if startsWithList (c :: rest) "false".toList then
        some (.jbool false, (c :: rest).drop 5)
      else if startsWithList (c :: rest) "null".toList then
        some (.jnull, (c :: rest).drop 4)
      else
        (parseJNum (c :: rest)).map fun p => (.jnum p.1, p.2)

def parseJMembers : Nat → List Char → List (String × JVal) →
    Option (JVal × List Char)
  | 0, _, _ => none
  | fuel + 1, cs, acc =>
    match skipWs cs with
    | '"' :: rest =>
      match parseStrBody (fuel + 1) [] rest with
      | none => none
      | some (k, r1) =>
        match skipWs r1 with
        | ':' :: r2 =>
          match parseJVal fuel r2 with
          | none => none
          | some (v, r3) =>
            match skipWs r3 with
            | ',' :: r4 => parseJMembers fuel r4 ((k, v) :: acc)
            | '}' :: r4 => some (.jobj ((k, v) :: acc).reverse, r4)
            | _ => none
        | _ => none
    | _ => none

def parseJElems : Nat → List Char → List JVal → Option (JVal × List Char)
  | 0, _, _ => none
  | fuel + 1, cs, acc =>
    match parseJVal fuel cs with
    | none => none
    | some (v, r) =>
      match skipWs r with
      | ',' :: r2 => parseJElems fuel r2 (v :: acc)
      | ']' :: r2 => some (.jarr (v :: acc).reverse, r2)
      | _ => none

end

/-- Model of `json.Unmarshal(b, &envelope)` for
`envelope map[string]interface{}`: a JSON object yields its fields
(`some (some fields)`), the literal `null` leaves the map `nil`
(`some none`), anything else — malformed input, a non-object top
level, or trailing garbage — is an unmarshal error (`none`). -/
def jsonUnmarshalMap (b : List Nat) : Option (Option Envelope) :=
  match parseJVal (b.length + 1) (bytesToStr b).toList with
  | some (v, rest) =>
    if skipWs rest = [] then
      match v with
      | .jobj fields => some (some fields)
      | .jnull => some none
      | _ => none
    else none
  | none => none

/-- Go map lookup over the field list: a later duplicate key wins. -/
def envGet (fields : Envelope) (k : String) : Option JVal :=
  fields.foldl (fun acc kv => if kv.1 = k then some kv.2 else acc) none

/-- Lookup through a possibly-`nil` map (Go indexes a nil map as absent). -/
def envGetOpt (env : Option Envelope) (k : String) : Option JVal :=
  match env with
  | none => none
  | some fields => envGet fields k

/-- Model of `strconv.Atoi`: optional sign then one or more digits,
nothing else (overflow of the machine int is not modelled; the inputs
are millisecond durations). -/
def atoi (s : String) : Option Int :=
  let p := match s.toList with
    | '-' :: t => (true, t)
    | '+' :: t => (false, t)
    | cs => (false, cs)
  if ¬p.2.isEmpty ∧ p.2.all (fun c => '0' ≤ c ∧ c ≤ '9') then
    some (if p.1 then -(digitsToNat p.2 : Int) else (digitsToNat p.2 : Int))
  else none

/-! ## base64 (model of `encoding/base64` `StdEncoding.EncodeToString`) -/

def b64Chars : List Char :=
  "ABCDEFGHIJKLMNOPQRSTUVWXYZabcdefghijklmnopqrstuvwxyz0123456789+/".toList

def b64Char (n : Nat) : Char := b64Chars.getD n 'A'

def base64Chunks : List Nat → List Char
  | [] => []
  | [a] => [b64Char (a % 256 / 4), b64Char (a % 4 * 16), '=', '=']
  | [a, b] => [b64Char (a % 256 / 4), b64Char (a % 4 * 16 + b % 256 / 16),
      b64Char (b % 16 * 4), '=']
  | a :: b :: c :: rest =>
      b64Char (a % 256 / 4) :: b64Char (a % 4 * 16 + b % 256 / 16) ::
      b64Char (b % 16 * 4 + c % 256 / 64) :: b64Char (c % 64) :: base64Chunks rest

def base64Encode (d : List Nat) : String := ⟨base64Chunks d⟩

/-! ## Outbound frame writer (`qiniuASRWebsocketWriter`) -/

/-- The per-session writer state: the `uint32` sequence counter plus the
audio parameters (Go `int`, modelled as `Int`). -/
structure QiniuWriter where
  seq : Nat
  sampleRate : Int
  channels : Int
  bits : Int

/-- `newQiniuASRWebsocketWriter`: defaults non-positive parameters and
starts the sequence counter at 1. -/
def newQiniuASRWebsocketWriter (sampleRate channels bits : Int) : QiniuWriter :=
  { seq := 1
    sampleRate := if sampleRate ≤ 0 then 16000 else sampleRate
    channels := if channels ≤ 0 then 1 else channels
    bits := if bits ≤ 0 then 16 else bits }

/-- `sendFrame`: optionally gzip the payload, build the 4-byte header
`[(1<<4)|1, (messageType<<4)|1, (1<<4)|compressionFlag, 0]`, append the
big-endian sequence number and payload length, then the payload; the
sequence counter is incremented (`uint32` wrap written explicitly).
Returns the frame written to the socket and the updated writer. -/
def sendFrame (w : QiniuWriter) (messageType : Nat) (payload : List Nat)
    (compress : Bool) : List Nat × QiniuWriter :=
  let compressed := if compress then gzipCompress payload else payload
  let compressionFlag := if compress then 1 else 0
  let header := [17, messageType % 16 * 16 + 1, 16 + compressionFlag, 0]
  let frame := header ++ be32 (w.seq % 2 ^ 32) ++
    be32 (compressed.length % 2 ^ 32) ++ compressed
  (frame, { w with seq := (w.seq + 1) % 2 ^ 32 })

/-- `SendAudioChunk`: a no-op on empty input, otherwise one compressed
audio frame (`messageType` 2). -/
def sendAudioChunk (w : QiniuWriter) (chunk : List Nat) :
    Option (List Nat) × QiniuWriter :=
  if chunk.isEmpty then (none, w)
  else
    let r := sendFrame w 2 chunk true
    (some r.1, r.2)

/-- `SendStop`: one uncompressed, empty stop frame (`messageType` 4). -/
def sendStop (w : QiniuWriter) : List Nat × QiniuWriter :=
  sendFrame w 4 [] false

/-- Run a list of `sendFrame` calls `(messageType, payload, compress)`
against a writer, collecting the emitted frames. -/
def sendFrames (w : QiniuWriter) : List (Nat × List Nat × Bool) →
    List (List Nat) × QiniuWriter
  | [] => ([], w)
  | c :: cs =>
    let r := sendFrame w c.1 c.2.1 c.2.2
    let rest := sendFrames r.2 cs
    (r.1 :: rest.1, rest.2)

/-! ## Inbound frame decoding (`parseASRWSBinaryMessage`) -/

/-- `parseASRWSBinaryMessage`: reject anything under 4 bytes; read the
header size from the low nibble of byte 0 (minimum 1) and reject a
buffer shorter than `headerSize*4`; strip a 4-byte sequence when the
flags bit is set; for server-response frames (type 9) carrying a size
prefix, slice exactly the declared payload; gunzip when the compression
nibble is set; JSON-decode when the serialization nibble is set, else
wrap the payload text as `{"text": payload}`. Returns the envelope
(possibly a `nil` map, from JSON `null`) and the processed payload. -/
def parseASRWSBinaryMessage (data : List Nat) :
    Except String (Option Envelope × List Nat) :=
  match data with
  | b0 :: b1 :: b2 :: b3 :: rest4 =>
    let d := b0 :: b1 :: b2 :: b3 :: rest4
    let headerSize0 := b0 % 16
    let headerSize := if headerSize0 = 0 then 1 else headerSize0
    let baseOffset := headerSize * 4
    if d.length < baseOffset then .error "invalid header size"
    else
      let flags := b1 % 16
      let messageType := b1 % 256 / 16
      let serialization := b2 % 256 / 16
      let compression := b2 % 16
      let payload := d.drop baseOffset
      (if flags % 2 = 1 then
        if payload.length < 4 then Except.error "payload missing sequence"
        else Except.ok (payload.drop 4)
      else Except.ok payload).bind fun payload1 =>
      (if messageType = 9 ∧ 4 ≤ payload1.length then
        let size := readBE32 payload1 0
        if size ≤ payload1.length - 4 then Except.ok ((payload1.drop 4).take size)
        else Except.error "payload size mismatch"
      else Except.ok payload1).bind fun payload2 =>
      (if compression = 1 then gzipDecompress payload2
       else Except.ok payload2).bind fun payload3 =>
      if serialization = 1 then
        match jsonUnmarshalMap payload3 with
        | none => Except.error "json unmarshal failed"
        | some env => Except.ok (env, payload3)
      else Except.ok (some [("text", JVal.jstr (bytesToStr payload3))], payload3)
  | _ => .error "binary message too short"

/-! ## PCM extraction (`extractPCMBuffer`) -/

/-- `extractPCMBuffer`: lower-case and trim the declared format; a
WAV-like declaration parses the 44-byte container header (channel
count at offset 22, sample rate at 24, bit depth at 34, little-endian,
each defaulted when zero) and returns the bytes from offset 44 on; a
PCM declaration returns the input unchanged with the fallback rate,
one channel and 16 bits; anything else is unsupported. The embedded
fields are read from unsigned slices, hence `Nat`. -/
def extractPCMBuffer (format : String) (data : List Nat) (fallbackRate : Nat) :
    Except String (List Nat × Nat × Nat × Nat) :=
  let fm := toLowerStr (trimSpace format)
  if fm = "" ∨ fm = "wav" ∨ fm = "wave" ∨
      hasSuffixStr fm "/wav" ∨ hasSuffixStr fm "/wave" then
    if data.length ≤ 44 then .error "wav payload too short"
    else
      let channels0 := readLE16 data 22
      let channels := if channels0 = 0 then 1 else channels0
      let sampleRate0 := readLE32 data 24
      let sampleRate := if sampleRate0 = 0 then fallbackRate else sampleRate0
      let bits0 := readLE16 data 34
      let bits := if bits0 = 0 then 16 else bits0
      .ok (data.drop 44, sampleRate, channels, bits)
  else if fm = "pcm" ∨ containsStr fm "pcm" then
    .ok (data, fallbackRate, 1, 16)
  else .error ("unsupported inline audio format: " ++ fm)

/-! ## Adaptive read deadline (`recognizeWebsocket`, timeout setup) -/

/-- One second in `time.Duration` units (nanoseconds). -/
def nsPerSecond : Nat := 1000000000

/-- The adaptive read deadline: base 90s; with a known positive audio
duration `d` (nanoseconds), `max(90s, 1.5*d + 30s)`; capped at five
minutes. `time.Duration(float64(d)*1.5)` is exact (and truncates the
odd half) for every realistic `d`, written here as `3*d/2`. -/
def computeMaxWait (audioDuration : Nat) : Nat :=
  let base := 90 * nsPerSecond
  let m := if 0 < audioDuration then
      let calculated := 3 * audioDuration / 2 + 30 * nsPerSecond
      if base < calculated then calculated else base
    else base
  if 300 * nsPerSecond < m then 300 * nsPerSecond else m

/-! ## Envelope field extraction (shared by `NextEvent` and the
`recognizeWebsocket` drain loop; the two Go code blocks are textually
identical, operating on the event fields resp. the loop locals) -/

/-- Go type assertion `.(map[string]interface{})`. -/
def asObj : Option JVal → Option Envelope
  | some (.jobj f) => some f
  | _ => none

/-- Go type assertion `.(string)`. -/
def asStr : Option JVal → Option String
  | some (.jstr s) => some s
  | _ => none

/-- Go type assertion `.(float64)` (JSON numbers decode to `float64`). -/
def asNum : Option JVal → Option Int
  | some (.jnum n) => some n
  | _ => none

/-- The `envelope["error"].(map)["message"]` check: a non-blank message
maps to the terminal error string. -/
def envelopeError (envelope : Option Envelope) : Option String :=
  match asObj (envGetOpt envelope "error") with
  | some errField =>
    match asStr (envGet errField "message") with
    | some message =>
      if trimSpace message ≠ "" then some ("qiniu asr error: " ++ message)
      else none
    | none => none
  | none => none

/-- The text/reqid/duration accumulator threaded through envelope
processing (`event.Text`/`ReqID`/`DurationMS`, or the loop's
`finalText`/`reqID`/`durationMS`). -/
structure TranscriptAcc where
  text : String := ""
  reqID : String := ""
  durationMS : Int := 0
  deriving Repr, DecidableEq

/-- The shared update block: `reqid`, `data.result.text`,
`data.result.additions.duration` (an `Atoi` string),
`data.audio_info.duration` (taken only while the accumulated duration
is still zero), top-level `text`, and the `is_final` flag (a bool, or a
string compared case-insensitively to "true"). -/
def applyEnvelopeFields (envelope : Option Envelope) (acc : TranscriptAcc) :
    TranscriptAcc × Bool :=
  let acc := match asStr (envGetOpt envelope "reqid") with
    | some v => if v ≠ "" then { acc with reqID := v } else acc
    | none => acc
  let acc := match asObj (envGetOpt envelope "data") with
    | some dataObj =>
      let acc := match asObj (envGet dataObj "result") with
        | some resultObj =>
          let acc := match asStr (envGet resultObj "text") with
            | some text => if text ≠ "" then { acc with text := text } else acc
            | none => acc
          match asObj (envGet resultObj "additions") with
          | some additions =>
            match asStr (envGet additions "duration") with
            | some durStr =>
              match atoi (trimSpace durStr) with
              | some val => { acc with durationMS := val }
              | none => acc
            | none => acc
          | none => acc
        | none => acc
      match asObj (envGet dataObj "audio_info") with
      | some audioInfo =>
        if acc.durationMS = 0 then
          match asNum (envGet audioInfo "duration") with
          | some dur => { acc with durationMS := dur }
          | none => acc
        else acc
      | none => acc
    | none => acc
  let acc := match asStr (envGetOpt envelope "text") with
    | some text => if text ≠ "" then { acc with text := text } else acc
    | none => acc
  let isFinal := match envGetOpt envelope "is_final" with
    | some (.jbool t) => t
    | some (.jstr t) => equalFoldTrue t
    | _ => false
  (acc, isFinal)

/-! ## `NextEvent` (pull-based session events) -/

/-- `ASRStreamEvent` as returned by `NextEvent`. -/
structure ASRStreamEvent where
  text : String := ""
  isFinal : Bool := false
  durationMS : Int := 0
  reqID : String := ""
  raw : List Nat := []
  err : Option String := none
  deriving Repr, DecidableEq

/-- A websocket message delivered by `conn.ReadMessage`. -/
inductive WSMessage where
  | binary (payload : List Nat)
  | text (payload : List Nat)
  | other

/-- Outcome of one `conn.ReadMessage` call inside `NextEvent`. -/
inductive ReadResult where
  | msg (m : WSMessage)
  | readErr (e : String)

/-- Decoding of one inbound message, as done identically by `NextEvent`
and the drain loop: binary frames through `parseASRWSBinaryMessage`
(whose envelope may be a `nil` map), text frames through
`json.Unmarshal` into a freshly made (hence non-`nil`) map, other frame
types skipped. `none` means the message is skipped. -/
def decodeLoopMessage : WSMessage → Option (Option Envelope × List Nat)
  | .binary payload =>
    match parseASRWSBinaryMessage payload with
    | .error _ => none
    | .ok (env, buf) => some (env, buf)
  | .text payload =>
    match jsonUnmarshalMap payload with
    | none => none
    | some env => some (some (env.getD []), payload)
  | .other => none

/-- The event constructed by `NextEvent` from a decoded message: the
raw payload, the terminal error field, the shared transcript updates,
and — when no text was recognized and the envelope was not `nil` — the
fallback that promotes the trimmed raw payload (unless it is empty or
exactly "\x7b\x7d") to the event text. -/
def buildEvent (envelope : Option Envelope) (processed : List Nat) : ASRStreamEvent :=
  let event : ASRStreamEvent := { raw := processed }
  match envelope with
  | none => event
  | some env =>
    let event := { event with err := envelopeError (some env) }
    let r := applyEnvelopeFields (some env) {}
    let event := { event with
      text := r.1.text, reqID := r.1.reqID, durationMS := r.1.durationMS,
      isFinal := r.2 }
    if event.text = "" then
      let trimmed := trimSpace (bytesToStr processed)
      if trimmed ≠ "" ∧ trimmed ≠ "\x7b\x7d" then { event with text := trimmed }
      else event
    else event

/-- `NextEvent`, given the outcome of the socket read: a read error is
returned as the session error; a message that fails to decode yields an
empty, non-terminal event with no error; a decoded message yields the
built event. -/
def nextEvent : ReadResult → Except String ASRStreamEvent
  | .readErr e => .error e
  | .msg m =>
    match decodeLoopMessage m with
    | none => .ok {}
    | some (env, buf) => .ok (buildEvent env buf)

/-! ## The `recognizeWebsocket` drain loop

The loop repeatedly reads from the upstream socket until a final event
with text arrives, the adaptive deadline elapses, the peer closes, or
an error occurs. Wall-clock time is modelled discretely: the script
lists the outcome of each successive read together with the time (ns
since the loop started) at which that read returned; an exhausted
script stands for a connection that stays silent until the read
deadline fires. -/

/-- Outcome of one `conn.ReadMessage` call inside the drain loop. -/
inductive ReadOutcome where
  | msg (m : WSMessage)
  | closeEOF
  | timeout
  | otherErr (e : String)

structure ScriptItem where
  tAfter : Nat
  outcome : ReadOutcome

/-- The loop accumulator: `finalText`, `reqID`, `durationMS`, `raw`. -/
structure DrainState where
  finalText : String := ""
  reqID : String := ""
  durationMS : Int := 0
  raw : List Nat := []
  deriving Repr, DecidableEq

/-- The ways the streaming attempt fails (each maps to a distinct Go
error value). -/
inductive WSFail where
  | ctxCanceled
  | topTimeout
  | readTimeout
  | readErr (e : String)
  | upstreamErr (msg : String)
  | noTranscription
  deriving Repr, DecidableEq

/-- `ctx.Err() != nil` at time `now`, for a context that is cancelled at
`c` (if at all). -/
def ctxDone (c : Option Nat) (now : Nat) : Bool :=
  match c with
  | some t => t ≤ now
  | none => false

/-- Processing of one decoded envelope inside the loop: store the raw
payload, return the server-reported error if any, otherwise apply the
shared transcript updates and report the `is_final` flag. -/
def drainStep (envelope : Option Envelope) (processed : List Nat)
    (st : DrainState) : Except WSFail (DrainState × Bool) :=
  let st := { st with raw := processed }
  match envelopeError envelope with
  | some msg => .error (.upstreamErr msg)
  | none =>
    let r := applyEnvelopeFields envelope ⟨st.finalText, st.reqID, st.durationMS⟩
    .ok ({ st with
            finalText := r.1.text
            reqID := r.1.reqID
            durationMS := r.1.durationMS }, r.2)

/-- The drain loop. Per iteration: propagate context cancellation;
return the hard timeout when no read budget remains; read. A normal
close/EOF breaks out; a read timeout (or any other read error) breaks
out if text was accumulated and fails otherwise; a message that fails
to decode is skipped; a decoded envelope is folded into the state,
breaking out on a final event with text or once the deadline has been
reached. `.ok` is reaching the code after the loop. -/
def drainLoop (maxWait : Nat) (ctxCancelAt : Option Nat) :
    List ScriptItem → Nat → DrainState → Except WSFail DrainState
  | items, now, st =>
    if ctxDone ctxCancelAt now then .error .ctxCanceled
    else if maxWait ≤ now then .error .topTimeout
    else
      match items with
      | [] => if st.finalText ≠ "" then .ok st else .error .readTimeout
      | item :: rest =>
        match item.outcome with
        | .closeEOF => .ok st
        | .timeout => if st.finalText ≠ "" then .ok st else .error .readTimeout
        | .otherErr e => if st.finalText ≠ "" then .ok st else .error (.readErr e)
        | .msg m =>
          match decodeLoopMessage m with
          | none => drainLoop maxWait ctxCancelAt rest item.tAfter st
          | some (env, buf) =>
            match drainStep env buf st with
            | .error f => .error f
            | .ok (st', isFinal) =>
              if isFinal ∧ st'.finalText ≠ "" then .ok st'
              else if maxWait ≤ item.tAfter then .ok st'
              else drainLoop maxWait ctxCancelAt rest item.tAfter st'

/-- The recognition result (`ASRResult`). The `Raw` JSON document
rebuilt after streaming is kept as its value tree (`json.Marshal` is
not re-modelled at the byte level). -/
structure ASRResultW where
  reqID : String := ""
  text : String := ""
  durationMS : Int := 0
  rawEnvelope : JVal := .jnull

/-- The last-resort duration estimate: `len(pcm)/2` samples divided by
the sample rate, in ms, rounded half away from zero
(`math.Round(samples / sr * 1000)`, exact on these magnitudes). -/
def derivedDurationMS (pcmLen : Nat) (sr : Nat) : Int :=
  if sr = 0 then 0 else ((1000 * pcmLen + sr) / (2 * sr) : Nat)

/-- The code after the drain loop: derive the duration if none was
reported, fail when the accumulated text trims to nothing, otherwise
assemble the result (trimmed text plus the rebuilt envelope). -/
def finishWS (pcmLen sampleRate svcSampleRate : Nat) (st : DrainState) :
    Except WSFail ASRResultW :=
  let durationMS : Int :=
    if st.durationMS = 0 then
      derivedDurationMS pcmLen (if sampleRate = 0 then svcSampleRate else sampleRate)
    else st.durationMS
  let cleanText := trimSpace st.finalText
  if cleanText = "" then .error .noTranscription
  else
    .ok { reqID := st.reqID
          text := cleanText
          durationMS := durationMS
          rawEnvelope := .jobj [("reqid", .jstr st.reqID), ("operation", .jstr "asr"),
            ("data", .jobj [("audio_info", .jobj [("duration", .jnum durationMS)]),
              ("result", .jobj [("additions", .jobj [("duration", .jstr (toString durationMS))]),
                ("text", .jstr cleanText)])])] }

/-- The drain loop followed by result assembly: the observable outcome
of the streaming attempt from the first read on. -/
def drainAndFinish (maxWait : Nat) (ctxCancelAt : Option Nat)
    (items : List ScriptItem) (now : Nat) (st : DrainState)
    (pcmLen sampleRate svcSampleRate : Nat) : Except WSFail ASRResultW :=
  (drainLoop maxWait ctxCancelAt items now st).bind
    (finishWS pcmLen sampleRate svcSampleRate)

/-! ## The `recognize` orchestrator (dual-path fallback)

The streaming attempt and the REST endpoint are external effects from
`recognize`'s point of view; they enter the model as the outcome the
websocket attempt would produce and a map from REST request audio to
the REST outcome. The trace records every REST call made and whether
the websocket path was attempted, so call counts are provable. -/

/-- `ASRInput`: a declared format plus either a remote URL or inline bytes. -/
structure ASRInput where
  format : String := ""
  url : String := ""
  data : List Nat := []

/-- The `audio` object of a REST recognition request: either a remote
URL or base64 inline data, each with the declared format. -/
inductive RestAudio where
  | urlAudio (format url : String)
  | inlineAudio (format b64 : String)
  deriving Repr, DecidableEq

/-- The outcome of `recognize` together with the REST calls issued (in
order) and the number of websocket streaming attempts. -/
structure RecognizeTrace where
  result : Except String ASRResultW
  restCalls : List RestAudio
  wsAttempts : Nat

/-- `recognize`: reject a blank token; default the format to "wav";
a non-blank URL goes straight to REST; empty inline data is rejected;
otherwise try the websocket path, returning its result on success, and
on any websocket error retry exactly once via REST with the audio
base64-encoded — that result replaces the websocket error on success,
and on failure both errors are combined. -/
def recognize (token : String) (input : ASRInput)
    (wsOutcome : Except String ASRResultW)
    (restOutcome : RestAudio → Except String ASRResultW) : RecognizeTrace :=
  if trimSpace token = "" then
    ⟨.error "authorization token is required", [], 0⟩
  else
    let format0 := trimSpace input.format
    let format := if format0 = "" then "wav" else format0
    let trimmedURL := trimSpace input.url
    if trimmedURL ≠ "" then
      let call := RestAudio.urlAudio format trimmedURL
      ⟨restOutcome call, [call], 0⟩
    else if input.data.isEmpty then
      ⟨.error "audio payload must include url or inline data", [], 0⟩
    else
      match wsOutcome with
      | .ok result => ⟨.ok result, [], 1⟩
      | .error e =>
        let call := RestAudio.inlineAudio format (base64Encode input.data)
        match restOutcome call with
        | .ok restResult => ⟨.ok restResult, [call], 1⟩
        | .error restErr =>
          ⟨.error ("asr websocket failed: " ++ e ++ "; rest fallback failed: " ++
            restErr), [call], 1⟩

/-- Pulling events for a whole inbound message sequence (each
`NextEvent` call reads one message). -/
def nextEvents (msgs : List ReadResult) : List (Except String ASRStreamEvent) :=
  msgs.map nextEvent

/-- A concrete 46-byte WAV buffer: channel count 2 at offset 22, sample
rate 8000 at offset 24, bit depth 8 at offset 34, two PCM bytes. -/
def wavWitnessData : List Nat :=
  List.replicate 22 0 ++ [2, 0] ++ [64, 31, 0, 0] ++ List.replicate 6 0 ++
    [8, 0] ++ List.replicate 8 0 ++ [7, 9]

/-! ## Shared lemmas -/

theorem drop_four {α : Type} (a b c d : α) (X : List α) :
    (a :: b :: c :: d :: X).drop 4 = X := rfl

theorem take_four {α : Type} (a b c d : α) (X : List α) :
    (a :: b :: c :: d :: X).take 4 = [a, b, c, d] := rfl

theorem readBE32_be32 (n : Nat) (l : List Nat) (h : n < 2 ^ 32) :
    readBE32 (be32 n ++ l) 0 = n := by
  simp only [be32, readBE32, List.cons_append, List.nil_append, List.getD]
  simp only [List.get?_cons_zero, List.get?_cons_succ, Option.getD_some]
  omega

theorem gzipCompress_of_ne_nil (d : List Nat) (hd : d ≠ []) :
    gzipCompress d = gzipStream d := by
  cases d with
  | nil => exact absurd rfl hd
  | cons a l => rfl

/-! ## Claim theorems -/

/-- C9: the adaptive read deadline is 90s when the estimated audio
duration is unknown (zero), and otherwise `max(90s, 1.5*duration + 30s)`
capped at five minutes. -/
theorem computeMaxWait_adaptive_deadline (d : Nat) (hd : 0 < d) :
    computeMaxWait 0 = 90 * nsPerSecond ∧
    computeMaxWait d =
      min (max (90 * nsPerSecond) (3 * d / 2 + 30 * nsPerSecond))
        (300 * nsPerSecond) := by
  constructor
  · rfl
  · simp only [computeMaxWait, if_pos hd]
    generalize 3 * d / 2 + 30 * nsPerSecond = c
    simp only [nsPerSecond]
    split_ifs <;> omega

/-- Witness for C9 at duration 240s: `max(90, 390)` capped to 300s. -/
theorem computeMaxWait_adaptive_deadline_witness :
    computeMaxWait 0 = 90 * nsPerSecond ∧
    computeMaxWait (240 * nsPerSecond) =
      min (max (90 * nsPerSecond) (3 * (240 * nsPerSecond) / 2 + 30 * nsPerSecond))
        (300 * nsPerSecond) :=
  computeMaxWait_adaptive_deadline (240 * nsPerSecond) (by decide)

/-- C10: the gzip helpers round-trip on every non-empty payload;
compressing an empty payload short-circuits to an empty byte slice, and
decompressing an empty input fails. -/
theorem gzip_roundtrip_and_empty_edge (d : List Nat) (hd : d ≠ []) :
    gzipDecompress (gzipCompress d) = .ok d ∧
    gzipCompress [] = [] ∧
    gzipDecompress [] = .error "gzip: unexpected EOF" := by
  refine ⟨?_, rfl, rfl⟩
  rw [gzipCompress_of_ne_nil d hd]
  exact gzipRead_gzipStream d

/-- Witness for C10 on the payload `[5, 6, 7]`. -/
theorem gzip_roundtrip_and_empty_edge_witness :
    gzipDecompress (gzipCompress [5, 6, 7]) = .ok [5, 6, 7] ∧
    gzipCompress [] = [] ∧
    gzipDecompress [] = .error "gzip: unexpected EOF" :=
  gzip_roundtrip_and_empty_edge [5, 6, 7] (by decide)

theorem sendFrame_seq_bytes (w : QiniuWriter) (mt : Nat) (p : List Nat)
    (cp : Bool) :
    (((sendFrame w mt p cp).1).drop 4).take 4 = be32 (w.seq % 2 ^ 32) := rfl

theorem sendFrames_seq_field (calls : List (Nat × List Nat × Bool))
    (w : QiniuWriter) (i : Nat) (hi : i < calls.length)
    (hs : w.seq + calls.length ≤ 2 ^ 32) :
    (((sendFrames w calls).1.getD i []).drop 4).take 4 = be32 (w.seq + i) := by
  induction calls generalizing w i with
  | nil => simp at hi
  | cons c cs ih =>
    simp only [List.length_cons] at hi hs
    cases i with
    | zero =>
      have hw : w.seq % 2 ^ 32 = w.seq := Nat.mod_eq_of_lt (by omega)
      simp only [sendFrames, List.getD_cons_zero, Nat.add_zero]
      rw [sendFrame_seq_bytes, hw]
    | succ i =>
      have hw1 : (w.seq + 1) % 2 ^ 32 = w.seq + 1 :=
        Nat.mod_eq_of_lt (by omega)
      have h2 : (sendFrame w c.1 c.2.1 c.2.2).2 =
          { w with seq := (w.seq + 1) % 2 ^ 32 } := rfl
      simp only [sendFrames, List.getD_cons_succ, h2, hw1]
      have := ih { w with seq := w.seq + 1 } i (by omega)
        (by show w.seq + 1 + cs.length ≤ 2 ^ 32; omega)
      rw [this]
      congr 1
      show w.seq + 1 + i = w.seq + (i + 1)
      omega

/-- C4: every frame written by `sendFrame` is a 4-byte header (header
size 1 in the low nibble of byte 0, the message type in the high nibble
of byte 1, the JSON serialization nibble and the compression flag in
byte 2, a reserved zero byte), a 4-byte big-endian sequence number, a
4-byte big-endian payload length, then the (gzipped when requested)
payload; a fresh session writer starts the sequence at 1, the counter
advances by exactly 1 per frame regardless of frame type, and the
`i`-th frame a session emits carries sequence `i+1`. -/
theorem sendFrame_layout_and_sequence (w : QiniuWriter) (mt : Nat)
    (payload : List Nat) (compress : Bool) (sr ch bits : Int)
    (calls : List (Nat × List Nat × Bool)) (i : Nat) (hmt : mt < 16)
    (hi : i < calls.length) (hfit : calls.length < 2 ^ 32) :
    (sendFrame w mt payload compress).1 =
      [17, mt * 16 + 1, 16 + (if compress then 1 else 0), 0] ++
        be32 (w.seq % 2 ^ 32) ++
        be32 ((if compress then gzipCompress payload else payload).length % 2 ^ 32) ++
        (if compress then gzipCompress payload else payload) ∧
    (sendFrame w mt payload compress).2.seq = (w.seq + 1) % 2 ^ 32 ∧
    (newQiniuASRWebsocketWriter sr ch bits).seq = 1 ∧
    (((sendFrames (newQiniuASRWebsocketWriter sr ch bits) calls).1.getD i []).drop 4).take 4
      = be32 (i + 1) := by
  refine ⟨?_, rfl, rfl, ?_⟩
  · simp [sendFrame, Nat.mod_eq_of_lt hmt]
  · have := sendFrames_seq_field calls (newQiniuASRWebsocketWriter sr ch bits) i hi
      (by simp only [newQiniuASRWebsocketWriter]; omega)
    simpa [Nat.add_comm] using this

/-- Witness for C4: a config, audio and stop frame from a fresh writer;
the third frame carries sequence 3. -/
theorem sendFrame_layout_and_sequence_witness :
    (sendFrame (newQiniuASRWebsocketWriter 16000 1 16) 2 [1, 2] true).1 =
      [17, 2 * 16 + 1, 16 + (if true then 1 else 0), 0] ++
        be32 ((newQiniuASRWebsocketWriter 16000 1 16).seq % 2 ^ 32) ++
        be32 ((if true then gzipCompress [1, 2] else [1, 2]).length % 2 ^ 32) ++
        (if true then gzipCompress [1, 2] else [1, 2]) ∧
    (sendFrame (newQiniuASRWebsocketWriter 16000 1 16) 2 [1, 2] true).2.seq =
      ((newQiniuASRWebsocketWriter 16000 1 16).seq + 1) % 2 ^ 32 ∧
    (newQiniuASRWebsocketWriter 16000 1 16).seq = 1 ∧
    (((sendFrames (newQiniuASRWebsocketWriter 16000 1 16)
        [(1, [7], true), (2, [8], true), (4, [], false)]).1.getD 2 []).drop 4).take 4
      = be32 (2 + 1) :=
  sendFrame_layout_and_sequence (newQiniuASRWebsocketWriter 16000 1 16) 2 [1, 2]
    true 16000 1 16 [(1, [7], true), (2, [8], true), (4, [], false)] 2
    (by decide) (by decide) (by decide)

/-- C5 counterexample: the declared format "wave" is none of the
claim's WAV-like formats (not empty, not "wav", does not end in
"/wav") and is not PCM-declared, yet extraction succeeds on a 46-byte
buffer instead of failing with the unsupported-format error the claim
requires for "any other declared format". -/
theorem extractPCMBuffer_wave_counterexample :
    extractPCMBuffer "wave" (List.replicate 46 0) 16000 =
      .ok (List.replicate 2 0, 16000, 1, 16) ∧
    ("wave" : String) ≠ "" ∧ ("wave" : String) ≠ "wav" ∧
    hasSuffixStr "wave" "/wav" = false ∧ containsStr "wave" "pcm" = false :=
  ⟨rfl, by decide, by decide, by decide, by decide⟩

/-- C5 (amended): the PCM extraction contract, with the WAV-like class
as the code has it (empty, "wav", "wave", or a format ending "/wav" or
"/wave", after trimming and lower-casing) and PCM-declared meaning the
format contains "pcm": WAV-like buffers under 45 bytes fail with the
too-short error; otherwise the PCM slice is the bytes from offset 44 on
(length `len(data)-44`) with channels/rate/bits read little-endian from
offsets 22/24/34 and defaulted to 1/fallback/16 when zero; PCM-declared
input is returned unchanged with the fallback rate, 1 channel, 16 bits;
any other format fails as unsupported. -/
theorem extractPCMBuffer_contract (format : String) (data : List Nat)
    (fallbackRate : Nat) :
    ((toLowerStr (trimSpace format) = "" ∨ toLowerStr (trimSpace format) = "wav" ∨
      toLowerStr (trimSpace format) = "wave" ∨
      hasSuffixStr (toLowerStr (trimSpace format)) "/wav" = true ∨
      hasSuffixStr (toLowerStr (trimSpace format)) "/wave" = true) →
      (data.length < 45 →
        extractPCMBuffer format data fallbackRate = .error "wav payload too short") ∧
      (45 ≤ data.length →
        extractPCMBuffer format data fallbackRate =
          .ok (data.drop 44,
            (if readLE32 data 24 = 0 then fallbackRate else readLE32 data 24),
            (if readLE16 data 22 = 0 then 1 else readLE16 data 22),
            (if readLE16 data 34 = 0 then 16 else readLE16 data 34)) ∧
        (data.drop 44).length = data.length - 44)) ∧
    (¬(toLowerStr (trimSpace format) = "" ∨ toLowerStr (trimSpace format) = "wav" ∨
      toLowerStr (trimSpace format) = "wave" ∨
      hasSuffixStr (toLowerStr (trimSpace format)) "/wav" = true ∨
      hasSuffixStr (toLowerStr (trimSpace format)) "/wave" = true) →
      (toLowerStr (trimSpace format) = "pcm" ∨
        containsStr (toLowerStr (trimSpace format)) "pcm" = true) →
      extractPCMBuffer format data fallbackRate = .ok (data, fallbackRate, 1, 16)) ∧
    (¬(toLowerStr (trimSpace format) = "" ∨ toLowerStr (trimSpace format) = "wav" ∨
      toLowerStr (trimSpace format) = "wave" ∨
      hasSuffixStr (toLowerStr (trimSpace format)) "/wav" = true ∨
      hasSuffixStr (toLowerStr (trimSpace format)) "/wave" = true) →
      ¬(toLowerStr (trimSpace format) = "pcm" ∨
        containsStr (toLowerStr (trimSpace format)) "pcm" = true) →
      extractPCMBuffer format data fallbackRate =
        .error ("unsupported inline audio format: " ++ toLowerStr (trimSpace format))) := by
  refine ⟨fun hw => ⟨fun hlen => ?_, fun hlen => ?_⟩,
    fun hnw hp => ?_, fun hnw hnp => ?_⟩
  · simp only [extractPCMBuffer]
    rw [if_pos hw, if_pos (by omega)]
  · simp only [extractPCMBuffer]
    rw [if_pos hw, if_neg (by omega)]
    exact ⟨rfl, by simp⟩
  · simp only [extractPCMBuffer]
    rw [if_neg hnw, if_pos hp]
  · simp only [extractPCMBuffer]
    rw [if_neg hnw, if_neg hnp]

/-- Witness for C5 on a concrete 46-byte WAV buffer carrying 2
channels, rate 8000 and 8 bits in its header. -/
theorem extractPCMBuffer_contract_witness :
    extractPCMBuffer "WAV " wavWitnessData 16000 =
      .ok (wavWitnessData.drop 44,
        (if readLE32 wavWitnessData 24 = 0 then 16000 else readLE32 wavWitnessData 24),
        (if readLE16 wavWitnessData 22 = 0 then 1 else readLE16 wavWitnessData 22),
        (if readLE16 wavWitnessData 34 = 0 then 16 else readLE16 wavWitnessData 34)) ∧
    (wavWitnessData.drop 44).length = wavWitnessData.length - 44 :=
  ((extractPCMBuffer_contract "WAV " wavWitnessData 16000).1
    (by right; left; decide)).2 (by decide)

/-- C6: decoding fails on fewer than 4 bytes; fails when the buffer is
shorter than `headerSize*4` with the header size taken from the low
nibble of byte 0 (minimum 1); and a server-response frame (type 9)
carrying a 4-byte big-endian size prefix fails with the size-mismatch
error when the declared size exceeds the available payload bytes, and
otherwise slices exactly that many payload bytes. -/
theorem parse_frame_failure_conditions :
    (∀ data : List Nat, data.length < 4 →
      parseASRWSBinaryMessage data = .error "binary message too short") ∧
    (∀ (b0 b1 b2 b3 : Nat) (rest : List Nat),
      (b0 :: b1 :: b2 :: b3 :: rest).length <
        (if b0 % 16 = 0 then 1 else b0 % 16) * 4 →
      parseASRWSBinaryMessage (b0 :: b1 :: b2 :: b3 :: rest) =
        .error "invalid header size") ∧
    (∀ (sz : Nat) (rest : List Nat), sz < 2 ^ 32 →
      (rest.length < sz →
        parseASRWSBinaryMessage (1 :: 144 :: 0 :: 0 :: (be32 sz ++ rest)) =
          .error "payload size mismatch") ∧
      (sz ≤ rest.length →
        parseASRWSBinaryMessage (1 :: 144 :: 0 :: 0 :: (be32 sz ++ rest)) =
          .ok (some [("text", JVal.jstr (bytesToStr (List.take sz rest)))],
            List.take sz rest))) := by
  refine ⟨fun data h => ?_, fun b0 b1 b2 b3 rest h => ?_,
    fun sz rest hsz => ?_⟩
  · rcases data with _ | ⟨a, _ | ⟨b, _ | ⟨c, _ | ⟨d, tl⟩⟩⟩⟩
    · rfl
    · rfl
    · rfl
    · rfl
    · simp only [List.length_cons] at h; omega
  · simp only [parseASRWSBinaryMessage]
    rw [if_pos h]
  · have hb : (be32 sz).length = 4 := rfl
    have hd4 : List.drop 4 (1 :: 144 :: 0 :: 0 :: (be32 sz ++ rest)) =
        be32 sz ++ rest := rfl
    have hdseq : List.drop 4 (be32 sz ++ rest) = rest := rfl
    have hread : readBE32 (be32 sz ++ rest) 0 = sz := readBE32_be32 sz rest hsz
    constructor <;> intro hrel <;>
      simp only [parseASRWSBinaryMessage] <;>
      norm_num [hb, hd4, List.length_cons, List.length_append, Except.bind,
        hread, hdseq]
    · rw [if_neg (show ¬sz ≤ rest.length by omega),
        if_neg (show ¬(4 + rest.length + 1 + 1 + 1 + 1 < 4) by omega)]
    · rw [if_pos hrel,
        if_neg (show ¬(4 + rest.length + 1 + 1 + 1 + 1 < 4) by omega)]

/-- Witness for C6: a 2-byte frame is too short, and a type-9 frame
declaring 2 payload bytes with only 1 available is a size mismatch. -/
theorem parse_frame_failure_conditions_witness :
    parseASRWSBinaryMessage [1, 2] = .error "binary message too short" ∧
    parseASRWSBinaryMessage (1 :: 144 :: 0 :: 0 :: (be32 2 ++ [65])) =
      .error "payload size mismatch" :=
  ⟨parse_frame_failure_conditions.1 [1, 2] (by decide),
   (parse_frame_failure_conditions.2.2 2 [65] (by decide)).1 (by decide)⟩

/-- C7: an inbound message whose decoding fails — a binary frame the
frame parser rejects (in particular one of fewer than 4 bytes), or a
text frame that is not valid JSON — makes `NextEvent` return an empty,
non-terminal event with no error, and such a message interleaved in a
stream leaves the processing of every other message unchanged. -/
theorem malformed_frames_nonfatal :
    (∀ (payload : List Nat) (e : String),
      parseASRWSBinaryMessage payload = .error e →
      nextEvent (.msg (.binary payload)) = .ok {}) ∧
    (∀ payload : List Nat, payload.length < 4 →
      nextEvent (.msg (.binary payload)) = .ok {}) ∧
    (∀ payload : List Nat, jsonUnmarshalMap payload = none →
      nextEvent (.msg (.text payload)) = .ok {}) ∧
    (∀ (bad : WSMessage) (pre post : List ReadResult),
      decodeLoopMessage bad = none →
      nextEvents (pre ++ .msg bad :: post) =
        nextEvents pre ++ .ok {} :: nextEvents post) := by
  have h1 : ∀ (payload : List Nat) (e : String),
      parseASRWSBinaryMessage payload = .error e →
      nextEvent (.msg (.binary payload)) = .ok {} := by
    intro payload e h
    simp only [nextEvent, decodeLoopMessage, h]
  refine ⟨h1, fun payload h => ?_, fun payload h => ?_,
    fun bad pre post h => ?_⟩
  · rcases payload with _ | ⟨a, _ | ⟨b, _ | ⟨c, _ | ⟨d, tl⟩⟩⟩⟩
    · exact h1 _ _ rfl
    · exact h1 _ _ rfl
    · exact h1 _ _ rfl
    · exact h1 _ _ rfl
    · simp only [List.length_cons] at h; omega
  · simp only [nextEvent, decodeLoopMessage, h]
  · have hb : nextEvent (.msg bad) = .ok {} := by
      simp only [nextEvent, h]
    simp only [nextEvents, List.map_append, List.map_cons, hb]

/-- Witness for C7: a 2-byte binary frame yields the empty event. -/
theorem malformed_frames_nonfatal_witness :
    nextEvent (.msg (.binary [1, 2])) = .ok {} :=
  malformed_frames_nonfatal.2.1 [1, 2] (by decide)

/-- C8 counterexample: a binary frame decoding to the envelope with the
single unrecognized key "a" produces an event whose text is the trimmed
raw payload — not the empty text the claim requires. -/
theorem unrecognized_envelope_counterexample :
    decodeLoopMessage (.binary ([1, 16, 16, 0] ++ strToBytes "\x7b\"a\":\"b\"\x7d")) =
      some (some [("a", JVal.jstr "b")], strToBytes "\x7b\"a\":\"b\"\x7d") ∧
    nextEvent (.msg (.binary ([1, 16, 16, 0] ++ strToBytes "\x7b\"a\":\"b\"\x7d"))) =
      .ok { text := "\x7b\"a\":\"b\"\x7d", raw := strToBytes "\x7b\"a\":\"b\"\x7d" } ∧
    ("\x7b\"a\":\"b\"\x7d" : String) ≠ "" :=
  ⟨rfl, rfl, by decide⟩

/-- C8 (amended): for every successfully decoded envelope with none of
the recognized keys ("error", "reqid", "data", "text", "is_final"),
the extraction never fails and yields isFinal false, duration 0, empty
reqid and no terminal error; the text is empty exactly when the trimmed
raw payload is empty or the two-character rendering of an empty JSON
object, and is otherwise the trimmed raw payload (the fallback the
original claim misses). -/
theorem buildEvent_unrecognized_envelope (env : Envelope) (processed : List Nat)
    (he : envGet env "error" = none) (hr : envGet env "reqid" = none)
    (hd : envGet env "data" = none) (ht : envGet env "text" = none)
    (hf : envGet env "is_final" = none) :
    buildEvent (some env) processed =
      { text := if trimSpace (bytesToStr processed) = "" ∨
            trimSpace (bytesToStr processed) = "\x7b\x7d" then ""
          else trimSpace (bytesToStr processed)
        raw := processed } ∧
    ∀ m : WSMessage, decodeLoopMessage m = some (some env, processed) →
      nextEvent (.msg m) = .ok (buildEvent (some env) processed) := by
  constructor
  · simp only [buildEvent, envelopeError, envGetOpt, he, hr, hd, ht, hf,
      asObj, asStr, applyEnvelopeFields]
    rw [if_pos trivial]
    split_ifs <;> first | rfl | tauto
  · intro m hm
    simp only [nextEvent, hm]

/-- Witness for C8 on the envelope with the single key "a" and its raw
payload. -/
theorem buildEvent_unrecognized_envelope_witness :
    buildEvent (some [("a", JVal.jstr "b")]) (strToBytes "\x7b\"a\":\"b\"\x7d") =
      { text := if trimSpace (bytesToStr (strToBytes "\x7b\"a\":\"b\"\x7d")) = "" ∨
            trimSpace (bytesToStr (strToBytes "\x7b\"a\":\"b\"\x7d")) = "\x7b\x7d" then ""
          else trimSpace (bytesToStr (strToBytes "\x7b\"a\":\"b\"\x7d"))
        raw := strToBytes "\x7b\"a\":\"b\"\x7d" } ∧
    nextEvent (.msg (.binary ([1, 16, 16, 0] ++ strToBytes "\x7b\"a\":\"b\"\x7d"))) =
      .ok (buildEvent (some [("a", JVal.jstr "b")]) (strToBytes "\x7b\"a\":\"b\"\x7d")) :=
  ⟨(buildEvent_unrecognized_envelope [("a", JVal.jstr "b")]
      (strToBytes "\x7b\"a\":\"b\"\x7d") rfl rfl rfl rfl rfl).1,
   (buildEvent_unrecognized_envelope [("a", JVal.jstr "b")]
      (strToBytes "\x7b\"a\":\"b\"\x7d") rfl rfl rfl rfl rfl).2
     (.binary ([1, 16, 16, 0] ++ strToBytes "\x7b\"a\":\"b\"\x7d")) rfl⟩

/-- C1 counterexample: an audio frame (messageType 2) encoded with
compression enabled does not decode back to its payload — decoding
fails outright, because the decoder strips the 4-byte length prefix
only for server-response frames (type 9), so the gunzip step sees the
length bytes first and rejects the stream. -/
theorem audio_frame_roundtrip_counterexample :
    parseASRWSBinaryMessage
        (sendFrame (newQiniuASRWebsocketWriter 16000 1 16) 2 [1, 2, 3] true).1 =
      .error "gzip: invalid header" := rfl

/-- C1 (amended): the encode/decode round-trip holds for the
length-prefixed server-response frame type (messageType 9) with a
JSON-decodable payload: encoding with compression enabled and decoding
yields back the original payload bytes byte-for-byte (alongside its
envelope); for an audio frame (messageType 2) decoding instead fails,
as the counterexample shows. -/
theorem server_frame_roundtrip (w : QiniuWriter) (p : List Nat)
    (env : Option Envelope) (hne : p ≠ []) (hlen : p.length + 18 < 2 ^ 32)
    (hjson : jsonUnmarshalMap p = some env) :
    parseASRWSBinaryMessage (sendFrame w 9 p true).1 = .ok (env, p) := by
  have hgz : gzipCompress p = gzipStream p := gzipCompress_of_ne_nil p hne
  have hgl : (gzipStream p).length = 18 + p.length := by
    simp [gzipStream, gzipHeader]; omega
  have hmod : (gzipStream p).length % 2 ^ 32 = (gzipStream p).length :=
    Nat.mod_eq_of_lt (by omega)
  have hun : gzipDecompress (gzipStream p) = .ok p := gzipRead_gzipStream p
  have hb4 : ∀ a : Nat, (be32 a).length = 4 := fun _ => rfl
  have hdrop2 : ∀ (a : Nat) (Y : List Nat), List.drop 4 (be32 a ++ Y) = Y :=
    fun _ _ => rfl
  have hmod2 : (18 + p.length) % 4294967296 = 18 + p.length :=
    Nat.mod_eq_of_lt (by omega)
  have hread2 : readBE32 (be32 (18 + p.length) ++ gzipStream p) 0 = 18 + p.length :=
    readBE32_be32 (18 + p.length) (gzipStream p) (by omega)
  have htake : List.take (18 + p.length) (gzipStream p) = gzipStream p := by
    rw [← hgl]; exact List.take_length _
  simp only [sendFrame, hgz, List.append_assoc, List.cons_append, List.nil_append]
  simp only [parseASRWSBinaryMessage, hmod]
  norm_num [List.length_cons, List.length_append, hb4, hdrop2, Except.bind, hgl]
  rw [hmod2, hread2, if_neg (by omega), if_pos (Nat.le_refl _), htake]
  simp [hun, hjson]

/-- Witness for the amended C1 on the payload "\x7b\x7d" (an empty JSON
object). -/
theorem server_frame_roundtrip_witness :
    parseASRWSBinaryMessage
        (sendFrame (newQiniuASRWebsocketWriter 16000 1 16) 9
          (strToBytes "\x7b\x7d") true).1 =
      .ok (some [], strToBytes "\x7b\x7d") :=
  server_frame_roundtrip (newQiniuASRWebsocketWriter 16000 1 16)
    (strToBytes "\x7b\x7d") (some []) (by decide) (by decide) rfl

/-- C3 counterexample: an upstream event carrying the non-empty text
" " is accumulated before the read deadline elapses; the loop then
soft-breaks (accumulated text non-empty), yet the orchestrator returns
the no-transcription error instead of the accumulated text as a
successful result. -/
theorem drain_timeout_whitespace_counterexample :
    drainLoop (90 * nsPerSecond) none
        [⟨2, .msg (.binary [1, 16, 0, 0, 32])⟩, ⟨3, .timeout⟩] 0 {} =
      .ok { finalText := " ", raw := [32] } ∧
    (" " : String) ≠ "" ∧
    drainAndFinish (90 * nsPerSecond) none
        [⟨2, .msg (.binary [1, 16, 0, 0, 32])⟩, ⟨3, .timeout⟩] 0 {}
        3200 16000 16000 =
      .error .noTranscription :=
  ⟨rfl, by decide, rfl⟩

/-- C3 (amended): when the read deadline elapses and the accumulated
text trims to something non-empty, the drain loop soft-breaks and the
attempt succeeds with that trimmed accumulated text; when it elapses
with no accumulated text at all, the attempt fails with the read
timeout error. (Accumulated text that trims to nothing — possible only
for white-space-only upstream text — is the gap the counterexample
exhibits: it yields the no-transcription error.) -/
theorem drain_timeout_soft_vs_hard (maxWait : Nat) (ctxCancelAt : Option Nat)
    (t now : Nat) (rest : List ScriptItem) (st : DrainState)
    (pcmLen sampleRate svcSampleRate : Nat)
    (hctx : ctxDone ctxCancelAt now = false) (hnow : now < maxWait) :
    (trimSpace st.finalText ≠ "" →
      ∃ r : ASRResultW,
        drainAndFinish maxWait ctxCancelAt (⟨t, .timeout⟩ :: rest) now st
            pcmLen sampleRate svcSampleRate = .ok r ∧
        r.text = trimSpace st.finalText) ∧
    (st.finalText = "" →
      drainAndFinish maxWait ctxCancelAt (⟨t, .timeout⟩ :: rest) now st
          pcmLen sampleRate svcSampleRate = .error .readTimeout) := by
  have hstep : drainLoop maxWait ctxCancelAt (⟨t, .timeout⟩ :: rest) now st =
      if st.finalText ≠ "" then .ok st else .error .readTimeout := by
    rw [drainLoop]
    rw [hctx]
    simp only [Bool.false_eq_true, if_false, if_neg (Nat.not_le_of_lt hnow)]
  constructor
  · intro h
    have hne : st.finalText ≠ "" := fun h0 => h (by rw [h0]; rfl)
    have hfin : drainAndFinish maxWait ctxCancelAt (⟨t, .timeout⟩ :: rest) now st
        pcmLen sampleRate svcSampleRate =
        finishWS pcmLen sampleRate svcSampleRate st := by
      rw [drainAndFinish, hstep, if_pos hne]
      rfl
    rw [hfin]
    simp only [finishWS]
    rw [if_neg h]
    exact ⟨_, rfl, rfl⟩
  · intro h0
    rw [drainAndFinish, hstep, if_neg (by simp [h0])]
    rfl

/-- Witness for C3 (amended), hard-timeout side: a deadline with no
accumulated text fails with the read timeout error. -/
theorem drain_timeout_soft_vs_hard_witness :
    drainAndFinish (90 * nsPerSecond) none [⟨5, .timeout⟩] 0 {}
        3200 16000 16000 = .error .readTimeout :=
  (drain_timeout_soft_vs_hard (90 * nsPerSecond) none 5 0 [] {} 3200 16000 16000
    rfl (by decide)).2 rfl

/-- C2: the dual-path fallback of `recognize` — a non-blank URL goes
straight to REST (one URL call, no websocket attempt, no fallback);
for inline bytes a failing websocket attempt triggers exactly one REST
call with the audio base64-encoded, whose success is returned with the
streaming error unsurfaced, and whose failure yields the combined
error. -/
theorem recognize_dual_path_fallback (token : String) (input : ASRInput)
    (wsOutcome : Except String ASRResultW)
    (restOutcome : RestAudio → Except String ASRResultW)
    (htok : trimSpace token ≠ "") :
    (trimSpace input.url ≠ "" →
      recognize token input wsOutcome restOutcome =
        ⟨restOutcome (.urlAudio
            (if trimSpace input.format = "" then "wav" else trimSpace input.format)
            (trimSpace input.url)),
          [.urlAudio
            (if trimSpace input.format = "" then "wav" else trimSpace input.format)
            (trimSpace input.url)], 0⟩) ∧
    (trimSpace input.url = "" → input.data ≠ [] → ∀ e, wsOutcome = .error e →
      (recognize token input wsOutcome restOutcome).restCalls =
        [.inlineAudio
          (if trimSpace input.format = "" then "wav" else trimSpace input.format)
          (base64Encode input.data)] ∧
      (recognize token input wsOutcome restOutcome).wsAttempts = 1 ∧
      (∀ r, restOutcome (.inlineAudio
          (if trimSpace input.format = "" then "wav" else trimSpace input.format)
          (base64Encode input.data)) = .ok r →
        (recognize token input wsOutcome restOutcome).result = .ok r) ∧
      (∀ e2, restOutcome (.inlineAudio
          (if trimSpace input.format = "" then "wav" else trimSpace input.format)
          (base64Encode input.data)) = .error e2 →
        (recognize token input wsOutcome restOutcome).result =
          .error ("asr websocket failed: " ++ e ++ "; rest fallback failed: " ++ e2))) := by
  constructor
  · intro hurl
    simp only [recognize, if_neg htok]
    rw [if_pos hurl]
  · intro hurl hdata e hws
    have hni : ¬input.data.isEmpty := by
      cases hd : input.data with
      | nil => exact absurd hd hdata
      | cons a l => simp [hd]
    have hrec : recognize token input wsOutcome restOutcome =
        (match restOutcome (.inlineAudio
            (if trimSpace input.format = "" then "wav" else trimSpace input.format)
            (base64Encode input.data)) with
          | .ok restResult => ⟨.ok restResult,
              [.inlineAudio
                (if trimSpace input.format = "" then "wav" else trimSpace input.format)
                (base64Encode input.data)], 1⟩
          | .error restErr => ⟨.error ("asr websocket failed: " ++ e ++
                "; rest fallback failed: " ++ restErr),
              [.inlineAudio
                (if trimSpace input.format = "" then "wav" else trimSpace input.format)
                (base64Encode input.data)], 1⟩ : RecognizeTrace) := by
      simp only [recognize, if_neg htok]
      rw [if_neg (by simp [hurl]), if_neg hni, hws]
    refine ⟨?_, ?_, fun r hr => ?_, fun e2 he2 => ?_⟩ <;>
      rw [hrec] <;>
      cases hro : restOutcome (.inlineAudio
        (if trimSpace input.format = "" then "wav" else trimSpace input.format)
        (base64Encode input.data)) <;>
      simp_all

/-- Witness for C2: a websocket failure on inline bytes followed by a
successful REST fallback. -/
theorem recognize_dual_path_fallback_witness :
    (recognize "t" ⟨"", "", [1]⟩ (.error "boom")
        (fun _ => .ok ⟨"r1", "hi", 5, .jnull⟩)).restCalls =
      [.inlineAudio "wav" (base64Encode [1])] ∧
    (recognize "t" ⟨"", "", [1]⟩ (.error "boom")
        (fun _ => .ok ⟨"r1", "hi", 5, .jnull⟩)).result = .ok ⟨"r1", "hi", 5, .jnull⟩ :=
  have h := (recognize_dual_path_fallback "t" ⟨"", "", [1]⟩ (.error "boom")
    (fun _ => .ok ⟨"r1", "hi", 5, .jnull⟩) (by decide)).2 rfl (by decide) "boom" rfl
  ⟨by simpa using h.1, h.2.2.1 ⟨"r1", "hi", 5, .jnull⟩ rfl⟩

end ASRGateway
